import Mathlib

/-!
Shallow embedding of the core of `movie_tmdb.py` (plex-renamer).

Python strings are modelled as Lean `String` or `List Char`.  Python's
`re` patterns used by the program are embedded as executable character-list
functions; `\d` is modelled as an ASCII digit test and `str.strip()` /
`str.lower()` as their ASCII counterparts, which is exact on every string
the program's patterns and the spec's examples involve.
-/

/-- Python `str.strip()`: drop whitespace from both ends of a string,
modelled on the character list. -/
def pyStrip (cs : List Char) : List Char :=
  ((cs.dropWhile Char.isWhitespace).reverse.dropWhile Char.isWhitespace).reverse

/-- The decimal digit character for a value below ten, as produced by
Python's `str` on integers. -/
def digitChar (n : Nat) : Char := Char.ofNat (48 + n)

/-- Decimal printing of a natural number, most significant digit first
(fuel-based so that it is structurally recursive and kernel-reducible). -/
def natDigitsAux : Nat → Nat → List Char
  | 0, _ => []
  | f + 1, n => if n < 10 then [digitChar n] else natDigitsAux f (n / 10) ++ [digitChar (n % 10)]

/-- Python `str(n)` for a non-negative integer: its decimal digits, no
padding, no sign. -/
def natToChars (n : Nat) : List Char := natDigitsAux (n + 1) n

/-- Python `str(i)` for an arbitrary integer: a leading minus sign for
negative values, decimal digits otherwise. -/
def intToChars (i : Int) : List Char :=
  if i < 0 then '-' :: natToChars i.natAbs else natToChars i.toNat

/-- `INVALID_FILENAME_CHARS` from `movie_tmdb.py`. -/
def INVALID_FILENAME_CHARS : List Char := ['<', '>', ':', '"', '/', '\\', '|', '?', '*']

/-- `SearchResult` from `movie_tmdb.py`: one TMDB search record, normalized.
Only the fields that the renaming logic reads are modelled: the title, the
numeric id (`id_`, a Python `int`) and the year of the parsed release date
(`release.year`; a Python `datetime.date` year always lies in 1..9999, and
the month and day are never read by the program). -/
structure SearchResult where
  title : String
  id_ : Int
  releaseYear : Nat
deriving DecidableEq

/-- `make_filename` from `movie_tmdb.py`: delete the illegal filename
characters from the title, fall back to the literal `FIXME` when nothing
is left, and compose `"<title> (<year>) \x7btmdb-<id>\x7d"`. -/
def make_filename (r : SearchResult) : String :=
  ⟨(if r.title.data.filter (fun c => decide (c ∉ INVALID_FILENAME_CHARS)) = []
      then "FIXME".data
      else r.title.data.filter (fun c => decide (c ∉ INVALID_FILENAME_CHARS)))
    ++ " (".data ++ natToChars r.releaseYear ++ ") \x7btmdb-".data
    ++ intToChars r.id_ ++ "\x7d".data⟩

/-- Second stage of the reversed-string parse of `RE_GOOD_FN.fullmatch`:
`ds` is the (reversed) maximal digit run that preceded the final closing
brace and `rest` the reversed remainder; the remainder must read
`-bd[mv]t\x7b )` followed by the four reversed year digits, `( ` and a
non-empty reversed title without a newline. -/
def checkAfterDigits (ds : List Char) (rest : List Char) : Bool :=
  match rest with
  | '-' :: 'b' :: 'd' :: c :: 't' :: '{' :: ' ' :: ')' :: y1 :: y2 :: y3 :: y4 :: '(' :: ' ' :: t =>
    !ds.isEmpty && (c == 'm' || c == 'v') &&
      y1.isDigit && y2.isDigit && y3.isDigit && y4.isDigit &&
      !t.isEmpty && t.all (fun x => x != '\n')
  | _ => false

/-- First stage of the reversed-string parse of `RE_GOOD_FN.fullmatch`:
the reversed string must start with the closing brace, then split at the
end of the digit run of the id. -/
def checkRev : List Char → Bool
  | '}' :: r1 => checkAfterDigits (r1.takeWhile Char.isDigit) (r1.dropWhile Char.isDigit)
  | _ => false

/-- Executable embedding of `RE_GOOD_FN.fullmatch`, where
`RE_GOOD_FN = re.compile(r"^.+ \(\d\x7b4\x7d\) \\\x7bt[mv]db-\d+\\\x7d$")`:
the string is parsed from its end — a closing brace, a maximal non-empty
run of digits (the id), the literal tag frame with an `m` or `v` tag
character, four digits in parentheses (the year), and a non-empty
title that contains no newline (`.` does not match a newline).
The theorem for claim C2 below proves this parse equivalent to the
existence of a decomposition of the string in the pattern's shape, which
is what `fullmatch` decides. -/
def looksCanonicalList (cs : List Char) : Bool := checkRev cs.reverse

/-- `RE_GOOD_FN.fullmatch(s) is not None` on a Lean string. -/
def RE_GOOD_FN_fullmatch (s : String) : Bool := looksCanonicalList s.data

/-- A decomposition of a character list in the shape of `RE_GOOD_FN`:
`<title> (<4 digits>) \x7bt[mv]db-<digits>\x7d` with a non-empty,
newline-free title. -/
def CanonicalShape (cs : List Char) : Prop :=
  ∃ (t y d : List Char) (c : Char),
    cs = t ++ [' ', '('] ++ y ++ [')', ' ', '{', 't'] ++ [c] ++ ['d', 'b', '-'] ++ d ++ ['}'] ∧
    t ≠ [] ∧ (∀ x ∈ t, x ≠ '\n') ∧
    y.length = 4 ∧ (∀ x ∈ y, x.isDigit = true) ∧
    d ≠ [] ∧ (∀ x ∈ d, x.isDigit = true) ∧
    (c = 'm' ∨ c = 'v')

/-- The shape claimed by the spec for the recognizer, following its words:
`<one-or-more-of-anything> (<4 digits>) \x7btmdb-<one-or-more-digits>\x7d`
— the tag is literally `tmdb` and the title segment is arbitrary. -/
def ClaimedShape (cs : List Char) : Prop :=
  ∃ (t y d : List Char),
    cs = t ++ [' ', '('] ++ y ++ [')', ' ', '{', 't', 'm', 'd', 'b', '-'] ++ d ++ ['}'] ∧
    t ≠ [] ∧ y.length = 4 ∧ (∀ x ∈ y, x.isDigit = true) ∧
    d ≠ [] ∧ (∀ x ∈ d, x.isDigit = true)

/-! ### Filename heuristics (`get_search_term_from_fn` and its stages) -/

/-- The global substitution `year_re.sub("", data)` of `_strip_year`,
where `year_re` is the alternation `\[\d\x7b4\x7d\]|\(\d\x7b4\x7d\)`:
Python's `re.sub` scans left to right and removes every non-overlapping
match; after a match it continues right after it, after a failed position
it moves on by one character.  Both alternatives are six characters long
and start with distinct characters, so the scan below is exact. -/
def subYears : List Char → List Char
  | '[' :: y1 :: y2 :: y3 :: y4 :: ']' :: rest =>
    if y1.isDigit && y2.isDigit && y3.isDigit && y4.isDigit then
      subYears rest
    else
      '[' :: subYears (y1 :: y2 :: y3 :: y4 :: ']' :: rest)
  | '(' :: y1 :: y2 :: y3 :: y4 :: ')' :: rest =>
    if y1.isDigit && y2.isDigit && y3.isDigit && y4.isDigit then
      subYears rest
    else
      '(' :: subYears (y1 :: y2 :: y3 :: y4 :: ')' :: rest)
  | c :: rest => c :: subYears rest
  | [] => []

/-- `_strip_year` from `movie_tmdb.py`: `year_re.sub("", data).strip()`. -/
def strip_year (cs : List Char) : List Char := pyStrip (subYears cs)

/-- The lazy scan of `patt.fullmatch(data)` in `_strip_leading_info`.
The pattern source reads `^(.*? - )(.*-.*$)`, but it is compiled with
`re.VERBOSE`, which discards the unescaped spaces: the compiled pattern
is `^(.*?-)(.*-.*$)`.  So group 1 is the shortest prefix ending in a
bare `-` whose remainder contains another `-`, and group 2 is that
remainder.  Assumes the input contains no newline (checked by the caller
`strip_leading_info`; with a newline the pattern cannot match at all,
since `.` matches no newline and the match must span the whole string). -/
def infoSplit : List Char → Option (List Char)
  | '-' :: rest =>
    if rest.any (fun c => c == '-') then some rest
    else infoSplit rest
  | _ :: rest => infoSplit rest
  | [] => none

/-- `_strip_leading_info` from `movie_tmdb.py`: if the whole string
matches the `re.VERBOSE`-compiled pattern `^(.*?-)(.*-.*$)`, return
group 2 stripped, else return the string unchanged. -/
def strip_leading_info (cs : List Char) : List Char :=
  if cs.any (fun c => c == '\n') then cs
  else
    match infoSplit cs with
    | some s => pyStrip s
    | none => cs

/-- `_strip_leading_number` from `movie_tmdb.py`:
`data.lstrip("0123456789 -")`. -/
def strip_leading_number (cs : List Char) : List Char :=
  cs.dropWhile (fun c => c.isDigit || c == ' ' || c == '-')

/-- Python `str.split(".")`: split on every literal dot, keeping empty
segments (`"".split(".") == [""]`). -/
def splitDots : List Char → List (List Char)
  | [] => [[]]
  | '.' :: rest => [] :: splitDots rest
  | c :: rest =>
    match splitDots rest with
    | s :: ss => (c :: s) :: ss
    | [] => [[c]]

/-- `_first_couple_words_from_dots` from `movie_tmdb.py`: when splitting
on dots yields more than two segments, keep the first two joined by one
space; otherwise return the input unchanged. -/
def first_couple_words_from_dots (cs : List Char) : List Char :=
  let split_by_dot := splitDots cs
  if split_by_dot.length > 2 then List.intercalate [' '] (split_by_dot.take 2) else cs

/-- `get_search_term_from_fn` from `movie_tmdb.py`: the four heuristic
stages applied in order to the filename stem. -/
def get_search_term_from_fn (fn : String) : String :=
  ⟨first_couple_words_from_dots (strip_leading_number (strip_leading_info (strip_year fn.data)))⟩

/-! ### Paths and the folder organizer -/

/-- A `pathlib.Path` as the program uses it: the names of the directories
above the file (root implicit) plus the final component's name. -/
structure PyPath where
  dirs : List String
  name : String
deriving DecidableEq

/-- `pathlib` suffix/stem split of a final component: the extension starts
at the last dot, provided that dot is neither the first nor the last
character of the name; otherwise there is no extension. -/
def pySplitName (name : List Char) : List Char × List Char :=
  if name.any (fun c => c == '.') then
    let k := (name.reverse.takeWhile (fun c => c != '.')).length
    let i := name.length - 1 - k
    if 0 < i ∧ k ≠ 0 then (name.take i, name.drop i) else (name, [])
  else (name, [])

/-- `Path.stem`: the final component without its extension. -/
def PyPath.stem (p : PyPath) : String := ⟨(pySplitName p.name.data).1⟩

/-- `Path.suffix`: the extension of the final component, with its dot. -/
def PyPath.suffix (p : PyPath) : String := ⟨(pySplitName p.name.data).2⟩

/-- `Path.parent.name`: the name of the containing directory (empty at
the filesystem root). -/
def PyPath.parentName (p : PyPath) : String := p.dirs.getLast?.getD ""

/-- `move_to_folder` from `movie_tmdb.py`: when the parent directory's
name differs from the file's stem, the planned destination
`fp.parent / fp.stem / fp.name` is returned (and, outside dry-run, the
directory is created and the file renamed — filesystem effects are not
modelled); otherwise the function returns `None`.  The `dry_run` flag
only suppresses the filesystem effects, never the returned value. -/
def move_to_folder (fp : PyPath) : Option PyPath :=
  let folder_name := fp.stem
  if fp.parentName ≠ folder_name then some ⟨fp.dirs ++ [folder_name], fp.name⟩ else none

/-- `create_new_filepath` from `movie_tmdb.py`:
`fp.with_name(make_filename(result) + fp.suffix)`. -/
def create_new_filepath (fp : PyPath) (result : SearchResult) : PyPath :=
  ⟨fp.dirs, make_filename result ++ fp.suffix⟩

/-! ### The interactive chooser `ask_user` -/

/-- Python `int(s)` on a user's reply, modelled for replies made of an
optional sign followed by ASCII digits (Python additionally tolerates
surrounding whitespace and digit-group underscores, which the program's
prompt contract never relies on); every other reply raises `ValueError`. -/
def pyInt : String → Option Int
  | ⟨'-' :: ds⟩ => if ds ≠ [] ∧ ds.all Char.isDigit then
      some (-(ds.foldl (fun a c => a * 10 + (c.toNat - 48)) 0 : Nat)) else none
  | ⟨'+' :: ds⟩ => if ds ≠ [] ∧ ds.all Char.isDigit then
      some ((ds.foldl (fun a c => a * 10 + (c.toNat - 48)) 0 : Nat)) else none
  | ⟨ds⟩ => if ds ≠ [] ∧ ds.all Char.isDigit then
      some ((ds.foldl (fun a c => a * 10 + (c.toNat - 48)) 0 : Nat)) else none

/-- The observable outcome of `ask_user`: a selected result, the
`RuntimeError("User aborted")` raised on input `0`, or running out of
scripted replies (the real program would block on `input()` forever). -/
inductive AskOutcome where
  | selected (r : SearchResult)
  | aborted
  | outOfInput
deriving DecidableEq

/-- Placeholder result used only to totalize list indexing in guarded
positions that the control flow proves in range. -/
def dfltResult : SearchResult := ⟨"", 0, 0⟩

/-- The `while True` prompt loop of `ask_user`, driven by the scripted
list of replies: an empty reply becomes `1`; an unparseable reply prints
the error and re-prompts; `0` raises the abort; a negative or too-large
value prints the error and re-prompts; otherwise `results[val - 1]` is
selected.  (A reply of `"b"` drops into the debugger and then falls into
the unparseable case.) -/
def askLoop (results : List SearchResult) : List String → AskOutcome
  | [] => .outOfInput
  | v :: rest =>
    match (if v = "" then some 1 else pyInt v) with
    | none => askLoop results rest
    | some n =>
      if n = 0 then .aborted
      else if n < 0 ∨ n > (results.length : Int) then askLoop results rest
      else .selected (results.getD (n - 1).toNat dfltResult)

/-- `ask_user` from `movie_tmdb.py`: with a single result and `confirm`
off, auto-select it; otherwise run the prompt loop. -/
def ask_user (results : List SearchResult) (confirm : Bool) (replies : List String) :
    AskOutcome :=
  if results.length = 1 ∧ confirm = false then .selected (results.getD 0 dfltResult)
  else askLoop results replies

/-! ### The driver `loop_path` -/

/-- `VIDEO_EXT` from `movie_tmdb.py`. -/
def VIDEO_EXT : List String := [".avi", ".mp4", ".mkv", ".m4v", ".ogm"]

/-- Python `str.lower()` (ASCII; the allow-listed extensions are ASCII). -/
def pyLower (s : String) : String := ⟨s.data.map Char.toLower⟩

/-- One file the walk visits, together with the behaviour of the external
collaborators for it: the outcome of `search(query, ...)` (which is `None`
exactly when TMDB returned zero results) and the scripted interactive
replies for a prompt on this file. -/
structure FileEvent where
  path : PyPath
  results : Option (List SearchResult)
  replies : List String

/-- Why a run of `loop_path` stopped before the final report. -/
inductive RunError where
  | userAborted
  | outOfInput
deriving DecidableEq

/-- The body of `loop_path` for one visited file, acting on the pair
`(num_changed, num_files_moved)`: non-video files are skipped; a stem
that already matches `RE_GOOD_FN` only goes through `move_to_folder`,
incrementing the moved counter when that relocated it; otherwise, when
the search produced results, the user's choice is applied and only the
changed counter is incremented — the return value of the
`move_to_folder(new_fp)` call after the rename is discarded by the
program, so no relocation is counted on that path.  Renaming and moving
are filesystem effects and do not touch the counters (a `PermissionError`
there is caught and only logged). -/
def processFile (confirm : Bool) (ev : FileEvent) (acc : Nat × Nat) :
    Except RunError (Nat × Nat) :=
  if VIDEO_EXT.contains (pyLower ev.path.suffix) then
    if RE_GOOD_FN_fullmatch ev.path.stem then
      match move_to_folder ev.path with
      | some _ => .ok (acc.1, acc.2 + 1)
      | none => .ok acc
    else
      match ev.results with
      | none => .ok acc
      | some rs =>
        match ask_user rs confirm ev.replies with
        | .aborted => .error .userAborted
        | .outOfInput => .error .outOfInput
        | .selected _ => .ok (acc.1 + 1, acc.2)
  else .ok acc

/-- The walk of `loop_path` over the visited files in order, threading the
two counters; an abort raised at a prompt propagates and ends the whole
run (no later file is processed). -/
def loopGo (confirm : Bool) : List FileEvent → Nat × Nat → Except RunError (Nat × Nat)
  | [], acc => .ok acc
  | ev :: rest, acc =>
    match processFile confirm ev acc with
    | .ok acc2 => loopGo confirm rest acc2
    | .error e => .error e

/-- `loop_path` from `movie_tmdb.py`, abstracted to its observable
outcome: the reported final pair `(num_changed, num_files_moved)`, or
the error that ended the run early. -/
def loop_path (confirm : Bool) (files : List FileEvent) : Except RunError (Nat × Nat) :=
  loopGo confirm files (0, 0)

/-! ### General list lemmas -/

/-- `takeWhile` over an append whose first part satisfies the predicate
and whose second part starts with a failing element. -/
theorem takeWhile_append_of_all {α : Type} (p : α → Bool) (b : α) (h2 : p b = false) :
    ∀ (l1 l2 : List α), (∀ x ∈ l1, p x = true) → (l1 ++ b :: l2).takeWhile p = l1
  | [], l2, _ => by simp [List.takeWhile_cons, h2]
  | a :: l, l2, h1 => by
    have ha : p a = true := h1 a (List.mem_cons_self a l)
    have ih := takeWhile_append_of_all p b h2 l l2 (fun x hx => h1 x (List.mem_cons_of_mem a hx))
    simp [List.takeWhile_cons, ha, ih]

/-- `dropWhile` over an append whose first part satisfies the predicate
and whose second part starts with a failing element. -/
theorem dropWhile_append_of_all {α : Type} (p : α → Bool) (b : α) (h2 : p b = false) :
    ∀ (l1 l2 : List α), (∀ x ∈ l1, p x = true) → (l1 ++ b :: l2).dropWhile p = b :: l2
  | [], l2, _ => by simp [List.dropWhile_cons, h2]
  | a :: l, l2, h1 => by
    have ha : p a = true := h1 a (List.mem_cons_self a l)
    have ih := dropWhile_append_of_all p b h2 l l2 (fun x hx => h1 x (List.mem_cons_of_mem a hx))
    simp [List.dropWhile_cons, ha, ih]

/-! ### The recognizer parses exactly the canonical shape -/

/-- Unfolding `checkRev` at a reversed string that starts with the
closing brace. -/
theorem checkRev_cons (r1 : List Char) :
    checkRev ('}' :: r1) =
      checkAfterDigits (r1.takeWhile Char.isDigit) (r1.dropWhile Char.isDigit) := rfl

/-- Unfolding `checkAfterDigits` at a remainder of the expected shape. -/
theorem checkAfterDigits_cons (ds : List Char) (c y1 y2 y3 y4 : Char) (t : List Char) :
    checkAfterDigits ds
        ('-' :: 'b' :: 'd' :: c :: 't' :: '{' :: ' ' :: ')' ::
          y1 :: y2 :: y3 :: y4 :: '(' :: ' ' :: t) =
      (!ds.isEmpty && (c == 'm' || c == 'v') &&
        y1.isDigit && y2.isDigit && y3.isDigit && y4.isDigit &&
        !t.isEmpty && t.all (fun x => x != '\n')) := rfl

/-- Soundness half: any decomposition in the canonical shape is accepted
by the recognizer. -/
theorem shape_accepted {cs : List Char} (h : CanonicalShape cs) :
    looksCanonicalList cs = true := by
  obtain ⟨t, y, d, c, rfl, ht, htn, hy4, hyd, hd, hdd, hc⟩ := h
  rcases y with _ | ⟨a, _ | ⟨b, _ | ⟨c2, _ | ⟨e, _ | ⟨f, y⟩⟩⟩⟩⟩ <;> simp at hy4
  have hdr : ∀ x ∈ d.reverse, Char.isDigit x = true := by
    intro x hx
    exact hdd x (List.mem_reverse.mp hx)
  have hrev :
      (t ++ [' ', '('] ++ [a, b, c2, e] ++ [')', ' ', '{', 't'] ++ [c] ++ ['d', 'b', '-'] ++
            d ++ ['}']).reverse =
        '}' :: (d.reverse ++ '-' :: 'b' :: 'd' :: c :: 't' :: '{' :: ' ' :: ')' ::
          e :: c2 :: b :: a :: '(' :: ' ' :: t.reverse) := by
    simp [List.reverse_append]
  unfold looksCanonicalList
  rw [hrev, checkRev_cons,
    takeWhile_append_of_all Char.isDigit '-' (by decide) d.reverse _ hdr,
    dropWhile_append_of_all Char.isDigit '-' (by decide) d.reverse _ hdr,
    checkAfterDigits_cons]
  have hae : a.isDigit = true := hyd a (by simp)
  have hbe : b.isDigit = true := hyd b (by simp)
  have hce : c2.isDigit = true := hyd c2 (by simp)
  have hee : e.isDigit = true := hyd e (by simp)
  have hte : t.reverse ≠ [] := by simpa using ht
  have hde : d.reverse ≠ [] := by simpa using hd
  have htn2 : ∀ x ∈ t.reverse, (x != '\n') = true := by
    intro x hx
    simpa using htn x (List.mem_reverse.mp hx)
  rcases hc with rfl | rfl <;>
    simp [hae, hbe, hce, hee, List.isEmpty_iff, hte, hde, List.all_eq_true, htn2] <;>
    exact htn

/-- Completeness half: anything the recognizer accepts decomposes in the
canonical shape. -/
theorem accepted_shape {cs : List Char} (h : looksCanonicalList cs = true) :
    CanonicalShape cs := by
  unfold looksCanonicalList at h
  rw [checkRev.eq_def] at h
  split at h
  case h_2 => exact absurd h (by simp)
  case h_1 r1 heq =>
    rw [checkAfterDigits.eq_def] at h
    split at h
    case h_2 => exact absurd h (by simp)
    case h_1 c y1 y2 y3 y4 t heq2 =>
      simp only [Bool.and_eq_true, Bool.or_eq_true, beq_iff_eq, Bool.not_eq_true',
        List.all_eq_true, bne_iff_ne, ne_eq] at h
      obtain ⟨⟨⟨⟨⟨⟨⟨hds, hc⟩, h1⟩, h2⟩, h3⟩, h4⟩, ht⟩, htn⟩ := h
      have hsplit : r1.takeWhile Char.isDigit ++
          ('-' :: 'b' :: 'd' :: c :: 't' :: '{' :: ' ' :: ')' ::
            y1 :: y2 :: y3 :: y4 :: '(' :: ' ' :: t) = r1 := by
        rw [← heq2]
        exact List.takeWhile_append_dropWhile Char.isDigit r1
      have hcs : cs = ('}' :: r1).reverse := by
        have h5 := congrArg List.reverse heq
        simpa using h5
      refine ⟨t.reverse, [y4, y3, y2, y1], (r1.takeWhile Char.isDigit).reverse, c, ?_, ?_, ?_,
        by simp, ?_, ?_, ?_, hc⟩
      · rw [hcs]
        conv_lhs => rw [← hsplit]
        simp [List.reverse_append]
      · simpa using ht
      · intro x hx
        exact htn x (List.mem_reverse.mp hx)
      · intro x hx
        simp only [List.mem_cons, List.not_mem_nil, or_false] at hx
        rcases hx with rfl | rfl | rfl | rfl
        exacts [h4, h3, h2, h1]
      · simpa using hds
      · intro x hx
        exact List.mem_takeWhile_imp (List.mem_reverse.mp hx)

/-- In any decomposition in the spec's claimed `tmdb`-only shape, the
fourth character after the id's digit run (reading the string from its
end, past the final brace) is the literal `m`. -/
theorem ClaimedShape_fourth (cs : List Char) (h : ClaimedShape cs) :
    ((cs.reverse.tail).dropWhile Char.isDigit)[3]? = some 'm' := by
  obtain ⟨t, y, d, rfl, ht, hy4, hyd, hd, hdd⟩ := h
  have hdr : ∀ x ∈ d.reverse, Char.isDigit x = true := fun x hx =>
    hdd x (List.mem_reverse.mp hx)
  have hrev :
      (t ++ [' ', '('] ++ y ++ [')', ' ', '{', 't', 'm', 'd', 'b', '-'] ++ d ++ ['}']).reverse =
        '}' :: (d.reverse ++ '-' :: 'b' :: 'd' :: 'm' :: 't' :: '{' :: ' ' :: ')' ::
          (y.reverse ++ '(' :: ' ' :: t.reverse)) := by
    simp [List.reverse_append]
  rw [hrev, List.tail_cons,
    dropWhile_append_of_all Char.isDigit '-' (by decide) d.reverse _ hdr]
  rfl

/-! ### Decimal printing lemmas -/

/-- Digit characters are digits. -/
theorem digitChar_isDigit (n : Nat) (h : n < 10) : (digitChar n).isDigit = true := by
  interval_cases n <;> decide

/-- Every character printed for a natural number is a digit. -/
theorem natDigitsAux_digits : ∀ (f n : Nat), ∀ c ∈ natDigitsAux f n, c.isDigit = true
  | 0, n => by simp [natDigitsAux]
  | f + 1, n => by
    intro c hc
    rw [natDigitsAux] at hc
    by_cases h : n < 10
    · rw [if_pos h] at hc
      simp only [List.mem_singleton] at hc
      exact hc ▸ digitChar_isDigit n h
    · rw [if_neg h] at hc
      simp only [List.mem_append, List.mem_singleton] at hc
      rcases hc with hc | rfl
      · exact natDigitsAux_digits f (n / 10) c hc
      · exact digitChar_isDigit _ (Nat.mod_lt n (by norm_num))

/-- Printing with positive fuel never yields the empty list. -/
theorem natDigitsAux_ne_nil (f n : Nat) : natDigitsAux (f + 1) n ≠ [] := by
  rw [natDigitsAux]
  by_cases h : n < 10 <;> simp [h]

/-- `str(n)` is never empty. -/
theorem natToChars_ne_nil (n : Nat) : natToChars n ≠ [] := natDigitsAux_ne_nil n n

/-- A number below ten prints as its single digit. -/
theorem natDigitsAux_one (f n : Nat) (hf : 0 < f) (h : n < 10) :
    natDigitsAux f n = [digitChar n] := by
  cases f with
  | zero => omega
  | succ f => simp [natDigitsAux, h]

/-- A two-digit number prints as its two digits. -/
theorem natDigitsAux_two (f n : Nat) (hf : n < f) (h1 : 10 ≤ n) (h2 : n ≤ 99) :
    natDigitsAux f n = [digitChar (n / 10), digitChar (n % 10)] := by
  cases f with
  | zero => omega
  | succ f =>
    rw [natDigitsAux, if_neg (by omega), natDigitsAux_one f (n / 10) (by omega) (by omega)]
    rfl

/-- A three-digit number prints as its three digits. -/
theorem natDigitsAux_three (f n : Nat) (hf : n < f) (h1 : 100 ≤ n) (h2 : n ≤ 999) :
    natDigitsAux f n =
      [digitChar (n / 100), digitChar (n / 10 % 10), digitChar (n % 10)] := by
  cases f with
  | zero => omega
  | succ f =>
    rw [natDigitsAux, if_neg (by omega),
      natDigitsAux_two f (n / 10) (by omega) (by omega) (by omega),
      Nat.div_div_eq_div_mul]
    norm_num

/-- A four-digit number prints as its four digits. -/
theorem natDigitsAux_four (f n : Nat) (hf : n < f) (h1 : 1000 ≤ n) (h2 : n ≤ 9999) :
    natDigitsAux f n =
      [digitChar (n / 1000), digitChar (n / 100 % 10),
        digitChar (n / 10 % 10), digitChar (n % 10)] := by
  cases f with
  | zero => omega
  | succ f =>
    rw [natDigitsAux, if_neg (by omega),
      natDigitsAux_three f (n / 10) (by omega) (by omega) (by omega),
      Nat.div_div_eq_div_mul, Nat.div_div_eq_div_mul]
    norm_num

/-- `str(n)` of a four-digit year is exactly its four digits. -/
theorem natToChars_four (n : Nat) (h1 : 1000 ≤ n) (h2 : n ≤ 9999) :
    natToChars n =
      [digitChar (n / 1000), digitChar (n / 100 % 10),
        digitChar (n / 10 % 10), digitChar (n % 10)] :=
  natDigitsAux_four (n + 1) n (by omega) h1 h2

/-! ### Claims C1, C2, C9 -/

/-- C2 (amended): `RE_GOOD_FN.fullmatch` accepts exactly the strings of
the full-string shape `<non-empty newline-free title> (<4 digits>)
\x7bt[mv]db-<one-or-more-digits>\x7d` — with a `tvdb` tag accepted
besides `tmdb` — and in particular it rejects a year in square brackets. -/
theorem C2_theorem :
    (∀ s : String, RE_GOOD_FN_fullmatch s = true ↔ CanonicalShape s.data) ∧
    RE_GOOD_FN_fullmatch "a [1234] \x7btmdb-123\x7d" = false := by
  refine ⟨fun s => ⟨fun h => accepted_shape h, fun h => shape_accepted h⟩, by decide⟩

/-- C2 witness: the characterization applied to a concrete canonical stem. -/
theorem C2_witness : CanonicalShape ("x (1234) \x7btmdb-5\x7d".data) :=
  (C2_theorem.1 "x (1234) \x7btmdb-5\x7d").mp (by decide)

/-- C2 counterexample: the recognizer also accepts a `tvdb`-tagged stem,
which is not of the spec's claimed `tmdb`-only shape, so the claimed
"exactly" characterization fails. -/
theorem C2_counterexample :
    RE_GOOD_FN_fullmatch "a (1234) \x7btvdb-123\x7d" = true ∧
    ¬ ClaimedShape ("a (1234) \x7btvdb-123\x7d".data) := by
  constructor
  · decide
  · intro h
    have h3 := ClaimedShape_fourth _ h
    exact absurd h3 (by decide)

/-- C1 (amended): the round-trip law holds for every candidate whose
title contains no newline, whose id is non-negative and whose release
year has four digits: the stem `make_filename` produces satisfies
`RE_GOOD_FN`. -/
theorem C1_theorem (r : SearchResult) (hy1 : 1000 ≤ r.releaseYear)
    (hy2 : r.releaseYear ≤ 9999) (hid : 0 ≤ r.id_)
    (ht : ∀ c ∈ r.title.data, c ≠ '\n') :
    RE_GOOD_FN_fullmatch (make_filename r) = true := by
  unfold RE_GOOD_FN_fullmatch
  apply shape_accepted
  have hid2 : intToChars r.id_ = natToChars r.id_.toNat := by
    unfold intToChars
    rw [if_neg (by omega)]
  refine ⟨if r.title.data.filter (fun c => decide (c ∉ INVALID_FILENAME_CHARS)) = []
      then "FIXME".data
      else r.title.data.filter (fun c => decide (c ∉ INVALID_FILENAME_CHARS)),
    natToChars r.releaseYear, natToChars r.id_.toNat, 'm', ?_, ?_, ?_, ?_, ?_, ?_, ?_,
    Or.inl rfl⟩
  · show (make_filename r).data = _
    unfold make_filename
    simp only [hid2]
    simp [List.append_assoc, List.cons_append, List.nil_append]
  · by_cases hc : r.title.data.filter (fun c => decide (c ∉ INVALID_FILENAME_CHARS)) = []
    · rw [if_pos hc]
      decide
    · rw [if_neg hc]
      exact hc
  · intro x hx
    by_cases hc : r.title.data.filter (fun c => decide (c ∉ INVALID_FILENAME_CHARS)) = []
    · rw [if_pos hc] at hx
      have hF : ∀ z ∈ "FIXME".data, z ≠ '\n' := by decide
      exact hF x hx
    · rw [if_neg hc] at hx
      exact ht x (List.mem_of_mem_filter hx)
  · rw [natToChars_four r.releaseYear hy1 hy2]
    rfl
  · intro x hx
    exact natDigitsAux_digits _ _ x hx
  · exact natToChars_ne_nil _
  · intro x hx
    exact natDigitsAux_digits _ _ x hx

/-- C1 witness: the round-trip law at a concrete candidate. -/
theorem C1_witness : RE_GOOD_FN_fullmatch (make_filename ⟨"foo", 123, 2031⟩) = true :=
  C1_theorem ⟨"foo", 123, 2031⟩ (by norm_num) (by norm_num) (by norm_num) (by decide)

/-- C1 counterexample: the round-trip law fails as claimed — for a
date-representable year below 1000 the printed year has fewer than four
digits, a negative id prints with a minus sign, and a title with a
newline falls outside the pattern's `.+`. -/
theorem C1_counterexample :
    (1 ≤ 999 ∧ 999 ≤ 9999 ∧
      RE_GOOD_FN_fullmatch (make_filename ⟨"a", 1, 999⟩) = false) ∧
    RE_GOOD_FN_fullmatch (make_filename ⟨"a", -1, 2000⟩) = false ∧
    RE_GOOD_FN_fullmatch (make_filename ⟨"a\nb", 1, 2000⟩) = false := by
  exact ⟨⟨by norm_num, by norm_num, by decide⟩, by decide, by decide⟩

/-- C9: the recognizer, built from `t[mv]db`, also accepts `tvdb`-tagged
stems (for any non-empty newline-free title, four-digit year and
non-empty digit id); the driver treats such a stem as already canonical —
`processFile` never increments the changed counter for it, it only runs
the folder organizer. -/
theorem C9_theorem :
    (∀ (t y d : List Char), t ≠ [] → (∀ x ∈ t, x ≠ '\n') → y.length = 4 →
      (∀ x ∈ y, x.isDigit = true) → d ≠ [] → (∀ x ∈ d, x.isDigit = true) →
      RE_GOOD_FN_fullmatch
        ⟨t ++ " (".data ++ y ++ ") \x7btvdb-".data ++ d ++ "\x7d".data⟩ = true) ∧
    (∀ (confirm : Bool) (ev : FileEvent) (acc : Nat × Nat),
      VIDEO_EXT.contains (pyLower ev.path.suffix) = true →
      RE_GOOD_FN_fullmatch ev.path.stem = true →
      ∃ m, processFile confirm ev acc = .ok (acc.1, m)) := by
  constructor
  · intro t y d ht htn hy4 hyd hd hdd
    unfold RE_GOOD_FN_fullmatch
    apply shape_accepted
    refine ⟨t, y, d, 'v', ?_, ht, htn, hy4, hyd, hd, hdd, Or.inr rfl⟩
    show t ++ " (".data ++ y ++ ") \x7btvdb-".data ++ d ++ "\x7d".data = _
    have e1 : " (".data = [' ', '('] := rfl
    have e2 : ") \x7btvdb-".data = [')', ' ', '{', 't', 'v', 'd', 'b', '-'] := rfl
    have e3 : "\x7d".data = ['}'] := rfl
    rw [e1, e2, e3]
    simp [List.append_assoc]
  · intro confirm ev acc hvid hcanon
    unfold processFile
    rw [if_pos hvid, if_pos hcanon]
    cases move_to_folder ev.path with
    | some p => exact ⟨acc.2 + 1, rfl⟩
    | none => exact ⟨acc.2, rfl⟩

/-- C9 witness: a concrete `tvdb` stem is accepted and a concrete
canonical video file goes through the skip branch. -/
theorem C9_witness :
    RE_GOOD_FN_fullmatch
      ⟨"Show".data ++ " (".data ++ "2020".data ++ ") \x7btvdb-".data ++ "7".data
        ++ "\x7d".data⟩ = true ∧
    ∃ m, processFile false ⟨⟨["d"], "a (2001) \x7btvdb-5\x7d.avi"⟩, none, []⟩ (3, 4) =
      .ok (3, m) := by
  constructor
  · exact C9_theorem.1 "Show".data "2020".data "7".data (by decide) (by decide) (by decide)
      (by decide) (by decide) (by decide)
  · exact C9_theorem.2 false ⟨⟨["d"], "a (2001) \x7btvdb-5\x7d.avi"⟩, none, []⟩ (3, 4)
      (by decide) (by decide)

/-! ### Claims C7 and C8 -/

/-- C7: `make_filename` deletes from the title exactly the characters of
the illegal set (pure deletion — the title segment is the filter of the
title), substitutes the literal `FIXME` when the cleaned title is empty,
and composes `<cleanedTitle> (<releaseYear>) \x7btmdb-<externalId>\x7d`;
in particular the all-illegal title `?` with year 2031 and id 123 yields
`FIXME (2031) \x7btmdb-123\x7d`. -/
theorem C7_theorem :
    (∀ r : SearchResult, ∃ t : List Char,
      (make_filename r).data =
        t ++ " (".data ++ natToChars r.releaseYear ++ ") \x7btmdb-".data
          ++ intToChars r.id_ ++ "\x7d".data ∧
      ((r.title.data.filter (fun c => decide (c ∉ INVALID_FILENAME_CHARS)) ≠ [] ∧
          t = r.title.data.filter (fun c => decide (c ∉ INVALID_FILENAME_CHARS))) ∨
        (r.title.data.filter (fun c => decide (c ∉ INVALID_FILENAME_CHARS)) = [] ∧
          t = "FIXME".data)) ∧
      (∀ c ∈ t, c ∉ INVALID_FILENAME_CHARS)) ∧
    make_filename ⟨"?", 123, 2031⟩ = "FIXME (2031) \x7btmdb-123\x7d" := by
  constructor
  · intro r
    by_cases hc : r.title.data.filter (fun c => decide (c ∉ INVALID_FILENAME_CHARS)) = []
    · refine ⟨"FIXME".data, ?_, Or.inr ⟨hc, rfl⟩, by decide⟩
      show (make_filename r).data = _
      unfold make_filename
      rw [if_pos hc]
    · refine ⟨r.title.data.filter (fun c => decide (c ∉ INVALID_FILENAME_CHARS)), ?_,
        Or.inl ⟨hc, rfl⟩, ?_⟩
      · show (make_filename r).data = _
        unfold make_filename
        rw [if_neg hc]
      · intro c hcm
        have h2 := (List.mem_filter.mp hcm).2
        exact of_decide_eq_true h2
  · decide

/-- C8: the folder organizer is a no-op exactly when the parent directory
is already named after the file's stem, otherwise it returns
`parent/<stem>/<name>`; applying it to a path it returned is a no-op
(idempotence), and `/foo/bar.avi` goes to `/foo/bar/bar.avi`. -/
theorem C8_theorem :
    (∀ fp : PyPath, fp.parentName = fp.stem → move_to_folder fp = none) ∧
    (∀ fp : PyPath, fp.parentName ≠ fp.stem →
      move_to_folder fp = some ⟨fp.dirs ++ [fp.stem], fp.name⟩) ∧
    (∀ fp fp2 : PyPath, move_to_folder fp = some fp2 → move_to_folder fp2 = none) ∧
    move_to_folder ⟨["foo"], "bar.avi"⟩ = some ⟨["foo", "bar"], "bar.avi"⟩ := by
  refine ⟨fun fp h => by simp [move_to_folder, h], fun fp h => by simp [move_to_folder, h],
    ?_, by decide⟩
  intro fp fp2 h
  unfold move_to_folder at h
  by_cases hc : fp.parentName ≠ fp.stem
  · rw [if_pos hc] at h
    have h2 : fp2 = ⟨fp.dirs ++ [fp.stem], fp.name⟩ := by
      exact (Option.some_inj.mp h).symm
    subst h2
    simp [move_to_folder, PyPath.parentName, PyPath.stem, List.getLast?_concat]
  · rw [if_neg hc] at h
    exact absurd h (by simp)

/-- C8 witness: the organizer's three cases at concrete paths — already
organized, needing a move, and idempotence on the moved result. -/
theorem C8_witness :
    move_to_folder ⟨["bar"], "bar.avi"⟩ = none ∧
    move_to_folder ⟨["foo"], "bar.avi"⟩ = some ⟨["foo", "bar"], "bar.avi"⟩ ∧
    move_to_folder ⟨["foo", "bar"], "bar.avi"⟩ = none := by
  refine ⟨C8_theorem.1 ⟨["bar"], "bar.avi"⟩ (by decide),
    C8_theorem.2.1 ⟨["foo"], "bar.avi"⟩ (by decide),
    C8_theorem.2.2.1 ⟨["foo"], "bar.avi"⟩ ⟨["foo", "bar"], "bar.avi"⟩ (by decide)⟩

/-! ### Lemmas on the year-stripping scan -/

/-- The scan passes over any character that opens neither alternative. -/
theorem subYears_cons_other (c : Char) (l : List Char) (h1 : c ≠ '[') (h2 : c ≠ '(') :
    subYears (c :: l) = c :: subYears l := by
  rw [subYears.eq_def]
  split
  · rename_i heq
    injection heq with h3 h4
    exact absurd h3 h1
  · rename_i heq
    injection heq with h3 h4
    exact absurd h3 h2
  · rename_i c2 rest heq
    injection heq with h3 h4
    subst h3
    subst h4
    rfl
  · rename_i heq
    exact absurd heq (by simp)

/-- The scan passes over a whole bracket-free block. -/
theorem subYears_append_noBrackets : ∀ (a r : List Char),
    (∀ x ∈ a, x ≠ '[' ∧ x ≠ '(') → subYears (a ++ r) = a ++ subYears r
  | [], _, _ => rfl
  | c :: a, r, h => by
    have hc := h c (List.mem_cons_self c a)
    rw [List.cons_append, subYears_cons_other c (a ++ r) hc.1 hc.2,
      subYears_append_noBrackets a r (fun x hx => h x (List.mem_cons_of_mem c hx))]
    rfl

/-- A bracket-free string is left untouched by the scan. -/
theorem subYears_eq_self (l : List Char) (h : ∀ x ∈ l, x ≠ '[' ∧ x ≠ '(') :
    subYears l = l := by
  have h2 := subYears_append_noBrackets l [] h
  have h3 : subYears [] = [] := rfl
  rw [List.append_nil, h3, List.append_nil] at h2
  exact h2

/-- The scan removes a square-bracket year token at the head. -/
theorem subYears_token_sq (y1 y2 y3 y4 : Char) (rest : List Char)
    (h1 : y1.isDigit = true) (h2 : y2.isDigit = true) (h3 : y3.isDigit = true)
    (h4 : y4.isDigit = true) :
    subYears ('[' :: y1 :: y2 :: y3 :: y4 :: ']' :: rest) = subYears rest := by
  rw [subYears]
  simp [h1, h2, h3, h4]

/-- The scan removes a parenthesis year token at the head. -/
theorem subYears_token_paren (y1 y2 y3 y4 : Char) (rest : List Char)
    (h1 : y1.isDigit = true) (h2 : y2.isDigit = true) (h3 : y3.isDigit = true)
    (h4 : y4.isDigit = true) :
    subYears ('(' :: y1 :: y2 :: y3 :: y4 :: ')' :: rest) = subYears rest := by
  rw [subYears]
  simp [h1, h2, h3, h4]

/-- Modelled from the spec's words for claim C3 only (deliberately not
from the code): remove just the FIRST substring matching `[YYYY]` or
`(YYYY)`, leaving everything after it untouched. -/
def subFirstYear : List Char → List Char
  | '[' :: y1 :: y2 :: y3 :: y4 :: ']' :: rest =>
    if y1.isDigit && y2.isDigit && y3.isDigit && y4.isDigit then
      rest
    else
      '[' :: subFirstYear (y1 :: y2 :: y3 :: y4 :: ']' :: rest)
  | '(' :: y1 :: y2 :: y3 :: y4 :: ')' :: rest =>
    if y1.isDigit && y2.isDigit && y3.isDigit && y4.isDigit then
      rest
    else
      '(' :: subFirstYear (y1 :: y2 :: y3 :: y4 :: ')' :: rest)
  | c :: rest => c :: subFirstYear rest
  | [] => []

/-- Modelled from the spec's words for claim C3: remove the first year
token only, then trim surrounding whitespace. -/
def stripYearFirstOnly (cs : List Char) : List Char := pyStrip (subFirstYear cs)

/-! ### Claim C3 -/

/-- C3 (amended): `_strip_year` removes every (left-to-right,
non-overlapping) occurrence of a bracketed 4-digit year — not only the
first — and then trims whitespace from both ends of the result; shown
here for one token between bracket-free blocks and for two tokens (one
square-bracketed, one parenthesised), both of which are removed. -/
theorem C3_theorem :
    (∀ (a b : List Char) (y1 y2 y3 y4 : Char),
      (∀ x ∈ a, x ≠ '[' ∧ x ≠ '(') → (∀ x ∈ b, x ≠ '[' ∧ x ≠ '(') →
      y1.isDigit = true → y2.isDigit = true → y3.isDigit = true → y4.isDigit = true →
      strip_year (a ++ '[' :: y1 :: y2 :: y3 :: y4 :: ']' :: b) = pyStrip (a ++ b)) ∧
    (∀ (a b c : List Char) (y1 y2 y3 y4 z1 z2 z3 z4 : Char),
      (∀ x ∈ a, x ≠ '[' ∧ x ≠ '(') → (∀ x ∈ b, x ≠ '[' ∧ x ≠ '(') →
      (∀ x ∈ c, x ≠ '[' ∧ x ≠ '(') →
      y1.isDigit = true → y2.isDigit = true → y3.isDigit = true → y4.isDigit = true →
      z1.isDigit = true → z2.isDigit = true → z3.isDigit = true → z4.isDigit = true →
      strip_year (a ++ '[' :: y1 :: y2 :: y3 :: y4 :: ']' ::
          (b ++ '(' :: z1 :: z2 :: z3 :: z4 :: ')' :: c)) =
        pyStrip (a ++ (b ++ c))) := by
  constructor
  · intro a b y1 y2 y3 y4 ha hb h1 h2 h3 h4
    unfold strip_year
    rw [subYears_append_noBrackets a _ ha, subYears_token_sq y1 y2 y3 y4 b h1 h2 h3 h4,
      subYears_eq_self b hb]
  · intro a b c y1 y2 y3 y4 z1 z2 z3 z4 ha hb hc h1 h2 h3 h4 g1 g2 g3 g4
    unfold strip_year
    rw [subYears_append_noBrackets a _ ha, subYears_token_sq y1 y2 y3 y4 _ h1 h2 h3 h4,
      subYears_append_noBrackets b _ hb, subYears_token_paren z1 z2 z3 z4 c g1 g2 g3 g4,
      subYears_eq_self c hc]

/-- C3 witness: the single-token case on the spec's own example and the
two-token case on a concrete string. -/
theorem C3_witness :
    strip_year ("Airplane ".data ++ '[' :: '1' :: '9' :: '8' :: '0' :: ']' :: []) =
      pyStrip ("Airplane ".data ++ []) ∧
    strip_year ("a ".data ++ '[' :: '1' :: '2' :: '3' :: '4' :: ']' ::
        (" b ".data ++ '(' :: '5' :: '6' :: '7' :: '8' :: ')' :: [])) =
      pyStrip ("a ".data ++ (" b ".data ++ [])) :=
  ⟨C3_theorem.1 "Airplane ".data [] '1' '9' '8' '0' (by decide) (by decide) (by decide)
      (by decide) (by decide) (by decide),
    C3_theorem.2 "a ".data " b ".data [] '1' '2' '3' '4' '5' '6' '7' '8' (by decide)
      (by decide) (by decide) (by decide) (by decide) (by decide) (by decide) (by decide)
      (by decide) (by decide) (by decide)⟩

/-- C3 counterexample: `_strip_year` uses a global `re.sub`, so on
`"a [1234] b [5678]"` the second year token is removed as well — the
output is not the claimed first-only removal and no longer contains
`[5678]`. -/
theorem C3_counterexample :
    strip_year "a [1234] b [5678]".data = "a  b".data ∧
    stripYearFirstOnly "a [1234] b [5678]".data = "a  b [5678]".data ∧
    strip_year "a [1234] b [5678]".data ≠
      stripYearFirstOnly "a [1234] b [5678]".data := by
  exact ⟨by decide, by decide, by decide⟩

/-! ### Lemmas on the leading-info scan -/

/-- Unfolding `infoSplit` at a hyphen. -/
theorem infoSplit_hyphen (rest : List Char) :
    infoSplit ('-' :: rest) =
      if rest.any (fun c => c == '-') then some rest else infoSplit rest := rfl

/-- The scan passes over any character that is not a hyphen. -/
theorem infoSplit_cons_other (c : Char) (l : List Char) (h : c ≠ '-') :
    infoSplit (c :: l) = infoSplit l := by
  rw [infoSplit.eq_def]
  split
  · rename_i heq
    injection heq with h3 h4
    exact absurd h3 h
  · rename_i c2 rest heq
    injection heq with h3 h4
    subst h4
    rfl
  · rename_i heq
    exact absurd heq (by simp)

/-- A hyphen-free string admits no match at all. -/
theorem infoSplit_none : ∀ (l : List Char), (∀ x ∈ l, x ≠ '-') → infoSplit l = none
  | [], _ => rfl
  | c :: l, h => by
    rw [infoSplit_cons_other c l (h c (List.mem_cons_self c l))]
    exact infoSplit_none l (fun x hx => h x (List.mem_cons_of_mem c hx))

/-- When the block before the first hyphen is hyphen-free and the
remainder after that hyphen contains another one, the lazy scan matches
exactly there and group 2 is the remainder. -/
theorem infoSplit_finds : ∀ (a b : List Char), (∀ x ∈ a, x ≠ '-') →
    b.any (fun c => c == '-') = true →
    infoSplit (a ++ '-' :: b) = some b
  | [], b, _, hb => by
    rw [List.nil_append, infoSplit_hyphen, if_pos hb]
  | c :: a, b, h, hb => by
    rw [List.cons_append, infoSplit_cons_other c _ (h c (List.mem_cons_self c a))]
    exact infoSplit_finds a b (fun x hx => h x (List.mem_cons_of_mem c hx)) hb

/-- With fewer than two hyphens in the whole string, the scan never
matches. -/
theorem infoSplit_no_second : ∀ (a b : List Char), (∀ x ∈ a, x ≠ '-') →
    (∀ x ∈ b, x ≠ '-') →
    infoSplit (a ++ '-' :: b) = none
  | [], b, _, hb => by
    have hbf : b.any (fun c => c == '-') = false := by
      rw [List.any_eq_false]
      intro x hx
      simp [hb x hx]
    rw [List.nil_append, infoSplit_hyphen, if_neg (by simp [hbf])]
    exact infoSplit_none b hb
  | c :: a, b, h, hb => by
    rw [List.cons_append, infoSplit_cons_other c _ (h c (List.mem_cons_self c a))]
    exact infoSplit_no_second a b (fun x hx => h x (List.mem_cons_of_mem c hx)) hb

/-- `strip_leading_info` when the pattern matches with group 2 equal to `s`. -/
theorem strip_leading_info_of_split (cs s : List Char)
    (hnl : cs.any (fun c => c == '\n') = false) (h : infoSplit cs = some s) :
    strip_leading_info cs = pyStrip s := by
  unfold strip_leading_info
  rw [hnl, h]
  simp

/-- `strip_leading_info` when the pattern does not match. -/
theorem strip_leading_info_of_none (cs : List Char)
    (hnl : cs.any (fun c => c == '\n') = false) (h : infoSplit cs = none) :
    strip_leading_info cs = cs := by
  unfold strip_leading_info
  rw [hnl, h]
  simp

/-- A string glued from newline-free blocks around a hyphen has no
newline. -/
theorem any_newline_false (a b : List Char) (ha : ∀ x ∈ a, x ≠ '\n')
    (hb : ∀ x ∈ b, x ≠ '\n') :
    (a ++ '-' :: b).any (fun c => c == '\n') = false := by
  rw [List.any_eq_false]
  intro x hx
  simp only [List.mem_append, List.mem_cons] at hx
  rcases hx with hx | rfl | hx
  · simp [ha x hx]
  · decide
  · simp [hb x hx]

/-! ### Claim C4 -/

/-- C4 (amended): the pattern of `_strip_leading_info` is compiled with
`re.VERBOSE`, which discards the unescaped spaces of `(.*? - )`, so the
separator is a bare hyphen: the text up to and including the first `-`
is dropped (and the trimmed remainder returned) exactly when the
remainder contains at least one further `-` anywhere; a string with
fewer than two hyphens — in particular any hyphen-free string — is
returned unchanged.  A `" - "` (space-hyphen-space) separator is neither
required for the split nor waited for. -/
theorem C4_theorem :
    (∀ (a b : List Char),
      (∀ x ∈ a, x ≠ '-' ∧ x ≠ '\n') → (∀ x ∈ b, x ≠ '\n') →
      b.any (fun c => c == '-') = true →
      strip_leading_info (a ++ '-' :: b) = pyStrip b) ∧
    (∀ (a b : List Char),
      (∀ x ∈ a, x ≠ '-' ∧ x ≠ '\n') → (∀ x ∈ b, x ≠ '-' ∧ x ≠ '\n') →
      strip_leading_info (a ++ '-' :: b) = a ++ '-' :: b) ∧
    (∀ (l : List Char), (∀ x ∈ l, x ≠ '-' ∧ x ≠ '\n') →
      strip_leading_info l = l) := by
  refine ⟨?_, ?_, ?_⟩
  · intro a b ha hb hyph
    exact strip_leading_info_of_split _ b
      (any_newline_false a b (fun x hx => (ha x hx).2) hb)
      (infoSplit_finds a b (fun x hx => (ha x hx).1) hyph)
  · intro a b ha hb
    exact strip_leading_info_of_none _
      (any_newline_false a b (fun x hx => (ha x hx).2) (fun x hx => (hb x hx).2))
      (infoSplit_no_second a b (fun x hx => (ha x hx).1) (fun x hx => (hb x hx).1))
  · intro l hl
    have hnl : l.any (fun c => c == '\n') = false := by
      rw [List.any_eq_false]
      intro x hx
      simp [(hl x hx).2]
    exact strip_leading_info_of_none l hnl
      (infoSplit_none l (fun x hx => (hl x hx).1))

/-- C4 witness: the repo's own test vectors — `"group - 11 - title"`
drops the text through its first hyphen, `"foo - bar"` (one hyphen) and
`"hello"` (no hyphen) stay untouched. -/
theorem C4_witness :
    strip_leading_info ("group ".data ++ '-' :: " 11 - title".data) =
      pyStrip " 11 - title".data ∧
    strip_leading_info ("foo ".data ++ '-' :: " bar".data) =
      "foo ".data ++ '-' :: " bar".data ∧
    strip_leading_info "hello".data = "hello".data :=
  ⟨C4_theorem.1 "group ".data " 11 - title".data (by decide) (by decide) (by decide),
    C4_theorem.2.1 "foo ".data " bar".data (by decide) (by decide),
    C4_theorem.2.2 "hello".data (by decide)⟩

/-- C4 counterexample: `"a-b-c"` contains no `" - "` separator at all,
and in `"a-b - c"` the remainder after the only `" - "` is hyphen-free,
so the claim says both are returned unchanged; the code (whose `re.VERBOSE`
pattern splits at the first bare hyphen) changes both. -/
theorem C4_counterexample :
    (strip_leading_info "a-b-c".data = "b-c".data ∧
      strip_leading_info "a-b-c".data ≠ "a-b-c".data) ∧
    (strip_leading_info "a-b - c".data = "b - c".data ∧
      strip_leading_info "a-b - c".data ≠ "a-b - c".data) := by
  exact ⟨⟨by decide, by decide⟩, ⟨by decide, by decide⟩⟩

/-! ### Membership lemmas for claim C10 -/

/-- Stripping whitespace only removes characters. -/
theorem mem_pyStrip {x : Char} {l : List Char} (h : x ∈ pyStrip l) : x ∈ l := by
  unfold pyStrip at h
  rw [List.mem_reverse] at h
  have h2 := ((List.dropWhile_suffix Char.isWhitespace).sublist.subset) h
  rw [List.mem_reverse] at h2
  exact (List.dropWhile_suffix Char.isWhitespace).sublist.subset h2

/-- The leading-info scan returns a suffix of its input. -/
theorem infoSplit_suffix : ∀ (cs s : List Char), infoSplit cs = some s → s <:+ cs
  | [], s, h => by simp [infoSplit] at h
  | c :: l, s, h => by
    by_cases hc : c = '-'
    · subst hc
      rw [infoSplit_hyphen] at h
      by_cases hb : l.any (fun x => x == '-') = true
      · rw [if_pos hb] at h
        obtain rfl : l = s := Option.some_inj.mp h
        exact ⟨['-'], rfl⟩
      · rw [if_neg hb] at h
        exact (infoSplit_suffix l s h).trans ⟨['-'], rfl⟩
    · rw [infoSplit_cons_other c l hc] at h
      exact (infoSplit_suffix l s h).trans ⟨[c], rfl⟩

/-- `strip_leading_info` only ever removes characters. -/
theorem mem_strip_leading_info {x : Char} {cs : List Char}
    (h : x ∈ strip_leading_info cs) : x ∈ cs := by
  unfold strip_leading_info at h
  by_cases hnl : cs.any (fun c => c == '\n') = true
  · rw [if_pos hnl] at h
    exact h
  · rw [if_neg hnl] at h
    cases heq : infoSplit cs with
    | none =>
      rw [heq] at h
      exact h
    | some s =>
      rw [heq] at h
      simp only at h
      exact (infoSplit_suffix cs s heq).sublist.subset (mem_pyStrip h)

/-! ### Claim C10 -/

/-- C10: on a non-empty stem built only from digits, spaces and hyphens,
`get_search_term_from_fn` returns the empty string (such a stem contains
no bracket and no dot, so the year and dot stages are no-ops, the
leading-info stage can only keep a suffix, and `lstrip("0123456789 -")`
then erases everything), so `search` can be invoked with an empty query. -/
theorem C10_theorem (s : String) (_hne : s.data ≠ [])
    (hchars : ∀ c ∈ s.data, c.isDigit = true ∨ c = ' ' ∨ c = '-') :
    get_search_term_from_fn s = "" := by
  unfold get_search_term_from_fn
  have hnb : ∀ x ∈ s.data, x ≠ '[' ∧ x ≠ '(' := by
    intro x hx
    rcases hchars x hx with h | rfl | rfl
    · constructor <;> (intro heq; subst heq; simp at h)
    · decide
    · decide
  have h1 : strip_year s.data = pyStrip s.data := by
    unfold strip_year
    rw [subYears_eq_self s.data hnb]
  have h2 : ∀ x ∈ strip_leading_info (pyStrip s.data),
      x.isDigit = true ∨ x = ' ' ∨ x = '-' :=
    fun x hx => hchars x (mem_pyStrip (mem_strip_leading_info hx))
  have h3 : strip_leading_number (strip_leading_info (pyStrip s.data)) = [] := by
    unfold strip_leading_number
    rw [List.dropWhile_eq_nil_iff]
    intro x hx
    rcases h2 x hx with h | rfl | rfl
    · simp [h]
    · decide
    · decide
  rw [h1, h3]
  rfl

/-- C10 witness: the all-digit stem `"1984"` maps to the empty query. -/
theorem C10_witness : get_search_term_from_fn "1984" = "" :=
  C10_theorem "1984" (by decide) (by decide)

/-! ### Claim C5 -/

/-- C5: in the rename branch (video file, stem not canonical, search
returned results, user selected a candidate) `processFile` increments
only the changed counter and never the moved counter — the program
discards the return value of `move_to_folder(new_fp)` after the rename.
At the concrete failing input a single such file whose canonical name
requires relocation yields the report `(changed, moved) = (1, 0)`
although the relocation does happen (`move_to_folder` on the renamed
path returns a new location). -/
theorem C5_theorem :
    (∀ (confirm : Bool) (ev : FileEvent) (acc : Nat × Nat) (rs : List SearchResult)
        (r : SearchResult),
      VIDEO_EXT.contains (pyLower ev.path.suffix) = true →
      RE_GOOD_FN_fullmatch ev.path.stem = false →
      ev.results = some rs →
      ask_user rs confirm ev.replies = .selected r →
      processFile confirm ev acc = .ok (acc.1 + 1, acc.2)) ∧
    loop_path false [⟨⟨["root"], "x.avi"⟩, some [⟨"foo", 123, 2031⟩], []⟩] = .ok (1, 0) ∧
    move_to_folder (create_new_filepath ⟨["root"], "x.avi"⟩ ⟨"foo", 123, 2031⟩) =
      some ⟨["root", "foo (2031) \x7btmdb-123\x7d"], "foo (2031) \x7btmdb-123\x7d.avi"⟩ := by
  refine ⟨?_, rfl, by decide⟩
  intro confirm ev acc rs r hvid hcanon hres hask
  unfold processFile
  rw [if_pos hvid, hcanon]
  simp only [Bool.false_eq_true, if_false]
  rw [hres]
  simp only []
  rw [hask]

/-- C5 witness: the rename branch at a concrete file increments only the
changed counter. -/
theorem C5_witness :
    processFile false ⟨⟨["root"], "y.avi"⟩, some [⟨"bar", 5, 2020⟩], []⟩ (2, 7) =
      .ok (2 + 1, 7) :=
  C5_theorem.1 false ⟨⟨["root"], "y.avi"⟩, some [⟨"bar", 5, 2020⟩], []⟩ (2, 7)
    [⟨"bar", 5, 2020⟩] ⟨"bar", 5, 2020⟩ (by decide) (by decide) rfl (by decide)

/-! ### Claim C6 -/

/-- Unfolding the prompt loop at a scripted reply. -/
theorem askLoop_cons (rs : List SearchResult) (v : String) (rest : List String) :
    askLoop rs (v :: rest) =
      match (if v = "" then some 1 else pyInt v) with
      | none => askLoop rs rest
      | some n =>
        if n = 0 then .aborted
        else if n < 0 ∨ n > (rs.length : Int) then askLoop rs rest
        else .selected (rs.getD (n - 1).toNat dfltResult) := rfl

/-- Unfolding the driver walk at a visited file. -/
theorem loopGo_cons (confirm : Bool) (ev : FileEvent) (evs : List FileEvent)
    (acc : Nat × Nat) :
    loopGo confirm (ev :: evs) acc =
      match processFile confirm ev acc with
      | .ok acc2 => loopGo confirm evs acc2
      | .error e => .error e := rfl

/-- C6: at the disambiguation prompt, the reply `0` raises the abort,
which propagates out of the driver walk without processing any further
file (fatal to the whole run); an unparseable reply re-prompts; a
parseable but negative or too-large reply re-prompts; the empty reply
selects candidate 1; and a reply parsing to `n` with `1 ≤ n ≤ len`
selects the `n`-th candidate (1-based). -/
theorem C6_theorem :
    (∀ (rs : List SearchResult) (confirm : Bool) (rest : List String),
      (rs.length ≠ 1 ∨ confirm = true) →
      ask_user rs confirm ("0" :: rest) = .aborted) ∧
    (∀ (confirm : Bool) (ev : FileEvent) (evs : List FileEvent) (acc : Nat × Nat),
      processFile confirm ev acc = .error .userAborted →
      loopGo confirm (ev :: evs) acc = .error .userAborted) ∧
    (∀ (rs : List SearchResult) (v : String) (rest : List String),
      v ≠ "" → pyInt v = none → askLoop rs (v :: rest) = askLoop rs rest) ∧
    (∀ (rs : List SearchResult) (v : String) (n : Int) (rest : List String),
      pyInt v = some n → n ≠ 0 → (n < 0 ∨ n > (rs.length : Int)) →
      askLoop rs (v :: rest) = askLoop rs rest) ∧
    (∀ (r : SearchResult) (rs : List SearchResult) (rest : List String),
      askLoop (r :: rs) ("" :: rest) = .selected r) ∧
    (∀ (rs : List SearchResult) (v : String) (n : Int) (rest : List String)
        (r : SearchResult),
      pyInt v = some n → 1 ≤ n → n ≤ (rs.length : Int) →
      rs[(n - 1).toNat]? = some r →
      askLoop rs (v :: rest) = .selected r) := by
  refine ⟨?_, ?_, ?_, ?_, ?_, ?_⟩
  · intro rs confirm rest h
    unfold ask_user
    rw [if_neg ?_]
    · rw [askLoop_cons,
        show (if ("0" : String) = "" then some (1 : Int) else pyInt "0") = some 0 from
          by decide]
      simp
    · rintro ⟨h1, h2⟩
      rcases h with h | h
      · exact h h1
      · rw [h] at h2
        exact absurd h2 (by decide)
  · intro confirm ev evs acc h
    rw [loopGo_cons, h]
  · intro rs v rest hv hnone
    rw [askLoop_cons, if_neg hv, hnone]
  · intro rs v n rest hpy hn0 hrange
    have hv : v ≠ "" := by
      intro hveq
      rw [hveq, show pyInt "" = none from rfl] at hpy
      exact Option.noConfusion hpy
    rw [askLoop_cons, if_neg hv, hpy]
    simp only []
    rw [if_neg hn0, if_pos hrange]
  · intro r rs rest
    rw [askLoop_cons, if_pos rfl]
    simp only []
    have hr : ¬((1 : Int) < 0 ∨ (1 : Int) > (((r :: rs).length : Nat) : Int)) := by
      push_neg
      refine ⟨by norm_num, ?_⟩
      simp only [List.length_cons]
      push_cast
      omega
    rw [if_neg (by norm_num), if_neg hr]
    norm_num [List.getD_cons_zero]
  · intro rs v n rest r hpy h1 h2 hget
    have hv : v ≠ "" := by
      intro hveq
      rw [hveq, show pyInt "" = none from rfl] at hpy
      exact Option.noConfusion hpy
    rw [askLoop_cons, if_neg hv, hpy]
    simp only []
    rw [if_neg (by omega), if_neg (by omega)]
    have h3 : rs.getD (n - 1).toNat dfltResult = r := by
      rw [List.getD_eq_getElem?_getD, hget]
      rfl
    rw [h3]

/-- C6 witness: each prompt behaviour at a concrete two-candidate list —
abort on `0` ending the whole walk, re-prompt on `"x"` and on `"7"`,
default to candidate 1 on the empty reply, and 1-based selection on `"2"`. -/
theorem C6_witness :
    ask_user [⟨"A", 1, 2000⟩, ⟨"B", 2, 2001⟩] false ["0"] = .aborted ∧
    loopGo false
      [⟨⟨["root"], "x.avi"⟩, some [⟨"A", 1, 2000⟩, ⟨"B", 2, 2001⟩], ["0"]⟩,
        ⟨⟨["root"], "y.avi"⟩, some [⟨"A", 1, 2000⟩], []⟩] (0, 0) = .error .userAborted ∧
    askLoop [⟨"A", 1, 2000⟩, ⟨"B", 2, 2001⟩] ["x"] =
      askLoop [⟨"A", 1, 2000⟩, ⟨"B", 2, 2001⟩] [] ∧
    askLoop [⟨"A", 1, 2000⟩, ⟨"B", 2, 2001⟩] ["7"] =
      askLoop [⟨"A", 1, 2000⟩, ⟨"B", 2, 2001⟩] [] ∧
    askLoop [⟨"A", 1, 2000⟩, ⟨"B", 2, 2001⟩] [""] = .selected ⟨"A", 1, 2000⟩ ∧
    askLoop [⟨"A", 1, 2000⟩, ⟨"B", 2, 2001⟩] ["2"] = .selected ⟨"B", 2, 2001⟩ := by
  refine ⟨C6_theorem.1 [⟨"A", 1, 2000⟩, ⟨"B", 2, 2001⟩] false [] (Or.inl (by decide)),
    C6_theorem.2.1 false ⟨⟨["root"], "x.avi"⟩, some [⟨"A", 1, 2000⟩, ⟨"B", 2, 2001⟩], ["0"]⟩
      [⟨⟨["root"], "y.avi"⟩, some [⟨"A", 1, 2000⟩], []⟩] (0, 0) (by rfl),
    C6_theorem.2.2.1 [⟨"A", 1, 2000⟩, ⟨"B", 2, 2001⟩] "x" [] (by decide) (by decide),
    C6_theorem.2.2.2.1 [⟨"A", 1, 2000⟩, ⟨"B", 2, 2001⟩] "7" 7 [] (by decide) (by decide)
      (Or.inr (by decide)),
    C6_theorem.2.2.2.2.1 ⟨"A", 1, 2000⟩ [⟨"B", 2, 2001⟩] [],
    C6_theorem.2.2.2.2.2 [⟨"A", 1, 2000⟩, ⟨"B", 2, 2001⟩] "2" 2 [] ⟨"B", 2, 2001⟩
      (by decide) (by decide) (by decide) (by decide)⟩
